import Mathlib

/-!
Shallow embedding of the batch job processing engine of
`backend/services/batch_service.py` (VEO7 video platform), together with
theorems settling the specification claims about it.

Python `datetime` values are modelled as integer timestamps (seconds),
Python floats as rationals, and the mutable object heap (job objects are
shared between the queue, the batch records and the bookkeeping dicts) as
an association list from job id to job record, with batches and the queue
holding job ids.
-/

namespace VEO7

/-- Embeds the `JobStatus` enum of `batch_service.py`. -/
inductive JobStatus
  | pending
  | processing
  | completed
  | failed
  | cancelled
deriving DecidableEq, Repr

/-- Embeds `JobStatus.value`, the string payload of each enum member. -/
def JobStatus.str : JobStatus → String
  | .pending => "pending"
  | .processing => "processing"
  | .completed => "completed"
  | .failed => "failed"
  | .cancelled => "cancelled"

/-- Embeds the `JobStatus(value)` enum constructor used by
`_load_persistent_data`; an unknown string raises in Python, modelled by
`none`. -/
def JobStatus.ofStrOpt (s : String) : Option JobStatus :=
  if s = "pending" then some .pending
  else if s = "processing" then some .processing
  else if s = "completed" then some .completed
  else if s = "failed" then some .failed
  else if s = "cancelled" then some .cancelled
  else none

/-- Embeds the `JobPriority` enum of `batch_service.py`
(`LOW = 3, MEDIUM = 2, HIGH = 1, URGENT = 0`). -/
inductive JobPriority
  | low
  | medium
  | high
  | urgent
deriving DecidableEq, Repr

/-- Embeds `JobPriority.value`. -/
def JobPriority.value : JobPriority → Nat
  | .low => 3
  | .medium => 2
  | .high => 1
  | .urgent => 0

/-- Embeds the `JobPriority(value)` enum constructor; an out-of-range value
raises in Python, modelled by `none`. -/
def JobPriority.ofValueOpt (n : Nat) : Option JobPriority :=
  if n = 3 then some .low
  else if n = 2 then some .medium
  else if n = 1 then some .high
  else if n = 0 then some .urgent
  else none

/-- Embeds the relevant keys of a job's `input_data` dict:
`duration`, `quality` and `text` are the only keys the engine itself reads
(in `_estimate_batch_duration`).  A missing key is `none`, matching
`dict.get` with a default. -/
structure InputData where
  duration : Option ℚ := none
  quality : Option String := none
  text : Option String := none
deriving DecidableEq, Repr

/-- Embeds the `BatchJob` dataclass.  Timestamps are integer seconds,
`progress` is a rational, `result` is kept opaque as an optional string. -/
structure BatchJob where
  id : String
  job_type : String
  input_data : InputData
  priority : JobPriority
  status : JobStatus
  created_at : Int
  started_at : Option Int := none
  completed_at : Option Int := none
  progress : ℚ := 0
  result : Option String := none
  error : Option String := none
  retry_count : Nat := 0
  max_retries : Nat := 3
deriving DecidableEq, Repr

/-- Embeds `BatchJob.__lt__`, the ordering the `PriorityQueue` applies:
`self.priority.value < other.priority.value`. -/
def jobLT (a b : BatchJob) : Prop :=
  a.priority.value < b.priority.value

instance (a b : BatchJob) : Decidable (jobLT a b) := by
  unfold jobLT; infer_instance

/-- Embeds the `BatchRequest` dataclass.  The `jobs` list of shared
`BatchJob` objects is modelled as the list of their ids (`jobIds`),
resolved through the job heap of the service state. -/
structure BatchRequest where
  id : String
  name : String
  jobIds : List String
  created_at : Int
  total_jobs : Nat
  completed_jobs : Nat := 0
  failed_jobs : Nat := 0
  status : JobStatus := .pending
  estimated_duration : Option ℚ := none
  actual_duration : Option ℚ := none
deriving DecidableEq, Repr

/-- Association-list lookup, embedding Python dict access by key. -/
def getEntry {α : Type} : List (String × α) → String → Option α
  | [], _ => none
  | kv :: rest, k => if kv.1 = k then some kv.2 else getEntry rest k

/-- Embeds the job-id construction `f"{batch_id}_{job_type}_{i}"` shared by
`create_video_batch`, `create_audio_batch` and `create_translation_batch`. -/
def mkJobId (batchId ty : String) (i : Nat) : String :=
  batchId ++ "_" ++ ty ++ "_" ++ toString i

/-- Embeds `job.id.split('_')[0]` from `_update_batch_status`: the
characters of the id strictly before the first underscore. -/
def idHead (s : String) : String :=
  String.mk (s.data.takeWhile (fun c => c != '_'))

/-- Embeds the base-cost dict `estimates` together with its
`.get(job.job_type, 10.0)` default in `_estimate_batch_duration`. -/
def baseEstimate (ty : String) : ℚ :=
  if ty = "video" then 30
  else if ty = "audio" then 5
  else if ty = "translation" then 2
  else 10

/-- Embeds the quality-multiplier dict lookup
`{'fast': 0.7, 'medium': 1.0, 'high': 1.5}.get(quality, 1.0)`. -/
def qualityMultiplier (q : String) : ℚ :=
  if q = "fast" then 7 / 10
  else if q = "medium" then 1
  else if q = "high" then 3 / 2
  else 1

/-- Embeds the per-job contribution of the loop body of
`_estimate_batch_duration`: only the three known job types add to
`total_estimate`; the `if/elif` chain has no `else` branch. -/
def jobEstimate (j : BatchJob) : ℚ :=
  let base := baseEstimate j.job_type
  if j.job_type = "video" then
    base * (j.input_data.duration.getD 5 / 5) *
      qualityMultiplier (j.input_data.quality.getD "medium")
  else if j.job_type = "audio" then
    base * (((j.input_data.text.getD "").length : ℚ) / 100)
  else if j.job_type = "translation" then
    base * (((j.input_data.text.getD "").length : ℚ) / 200)
  else 0

/-- Embeds `_estimate_batch_duration`: sum the per-job estimates, then
scale by `min(max_workers, len(jobs)) / len(jobs)`. -/
def estimateBatchDuration (maxWorkers : Nat) (jobs : List BatchJob) : ℚ :=
  let total := jobs.foldl (fun acc j => acc + jobEstimate j) 0
  total * ((min maxWorkers jobs.length : Nat) : ℚ) / (jobs.length : ℚ)

/-- Embeds `JobPriority(min(job.priority.value + 1, JobPriority.LOW.value))`
from the retry branch of `_process_job`.  The argument is always in the
range 1..3, so the `getD` default is unreachable. -/
def demote (p : JobPriority) : JobPriority :=
  (JobPriority.ofValueOpt (min (p.value + 1) JobPriority.low.value)).getD .low

/-- Iterated priority demotion, one step per retry. -/
def demoteIter : Nat → JobPriority → JobPriority
  | 0, p => p
  | n + 1, p => demoteIter n (demote p)

/-- Embeds the success path of `_process_job`: the job is marked
`PROCESSING` with `started_at` set, the executor returns `r`, and the job
is marked `COMPLETED` with `completed_at`, `result` and `progress = 100`. -/
def succeedJob (tS tE : Int) (r : String) (j : BatchJob) : BatchJob :=
  { j with status := .completed, started_at := some tS,
           completed_at := some tE, result := some r, progress := 100 }

/-- Embeds the failure path of `_process_job` (the executor raised with
message `e`): mark `FAILED` with `error` and `completed_at`; then, if
`retry_count < max_retries`, increment `retry_count`, reset to `PENDING`
clearing `started_at`/`completed_at`/`error`, demote the priority and
re-queue.  The boolean reports whether the job was re-queued. -/
def failJobStep (tS tE : Int) (e : String) (j : BatchJob) : BatchJob × Bool :=
  let j1 : BatchJob :=
    { j with status := .failed, error := some e,
             started_at := some tS, completed_at := some tE }
  if j1.retry_count < j1.max_retries then
    ({ j1 with retry_count := j1.retry_count + 1, status := .pending,
               started_at := none, completed_at := none, error := none,
               priority := demote j1.priority }, true)
  else
    (j1, false)

/-- Runs `_process_job` repeatedly on a job whose executor raises on every
invocation, following each re-queue, with `gas` bounding the number of
attempts.  Returns the final job record and the number of re-queues. -/
def runAlwaysFailing (tS tE : Int) (e : String) : Nat → BatchJob → BatchJob × Nat
  | 0, j => (j, 0)
  | gas + 1, j =>
    match failJobStep tS tE e j with
    | (j1, true) =>
      let rec_result := runAlwaysFailing tS tE e gas j1
      (rec_result.1, rec_result.2 + 1)
    | (j1, false) => (j1, 0)

/-- Embeds the in-memory state of a `BatchProcessingService` instance:
`max_workers`, the shared job-object heap (`jobs`), the ids held by the
`PriorityQueue` (`queue`, dispatch order abstracted), the `batch_requests`
dict and the keys of the `completed_jobs` dict. -/
structure SysState where
  maxWorkers : Nat
  jobs : List (String × BatchJob)
  queue : List String
  batches : List (String × BatchRequest)
  completedIds : List String
deriving DecidableEq, Repr

/-- Status of the job object a given id refers to in the heap. -/
def statusOf (s : SysState) (jid : String) : Option JobStatus :=
  (getEntry s.jobs jid).map BatchJob.status

/-- Embeds the generator-expression counting in `_update_batch_status`:
`sum(1 for j in batch_request.jobs if j.status == st)`. -/
def countStatus (store : List (String × BatchJob)) (ids : List String)
    (st : JobStatus) : Nat :=
  ids.countP (fun jid => decide ((getEntry store jid).map BatchJob.status = some st))

/-- Embeds the body of `_update_batch_status` acting on one batch record:
recount `completed_jobs`/`failed_jobs`; when their sum reaches
`total_jobs`, derive the batch status (`COMPLETED` if no failures,
`FAILED` if no successes, `COMPLETED` on a mix) and fill `actual_duration`
from the extreme job timestamps; otherwise only the counters change. -/
def updateBatchStatus (store : List (String × BatchJob)) (B : BatchRequest) :
    BatchRequest :=
  let completed := countStatus store B.jobIds .completed
  let failed := countStatus store B.jobIds .failed
  let B1 := { B with completed_jobs := completed, failed_jobs := failed }
  if completed + failed = B.total_jobs then
    let st : JobStatus :=
      if failed = 0 then .completed
      else if completed = 0 then .failed
      else .completed
    let starts := B.jobIds.filterMap (fun jid => (getEntry store jid).bind BatchJob.started_at)
    let ends := B.jobIds.filterMap (fun jid => (getEntry store jid).bind BatchJob.completed_at)
    let B2 := { B1 with status := st }
    match starts, ends with
    | s0 :: srest, e0 :: erest =>
        let dur : Int := erest.foldl max e0 - srest.foldl min s0
        { B2 with actual_duration := some (dur : ℚ) }
    | _, _ => B2
  else B1

/-- Embeds the batch lookup of `_update_batch_status`: the containing batch
is found through `job.id.split('_')[0]`; if the id is absent from
`batch_requests` the update is a no-op. -/
def updateBatchFor (s : SysState) (jid : String) : SysState :=
  let bkey := idHead jid
  match getEntry s.batches bkey with
  | none => s
  | some B =>
      { s with batches :=
          s.batches.map (fun kv =>
            (kv.1, if kv.1 = bkey then updateBatchStatus s.jobs B else kv.2)) }

/-- Heap update: replace the job object a given id refers to, embedding a
mutation of the shared `BatchJob` object. -/
def setJob (store : List (String × BatchJob)) (jid : String) (j : BatchJob) :
    List (String × BatchJob) :=
  store.map (fun kv => (kv.1, if kv.1 = jid then j else kv.2))

/-- Embeds `cancel_batch`: if the id is unknown return `False`; otherwise
set every currently-`PENDING` job of the batch to `CANCELLED`, mark the
batch `CANCELLED` and return `True`. -/
def cancelBatchFn (s : SysState) (bid : String) : SysState × Bool :=
  match getEntry s.batches bid with
  | none => (s, false)
  | some B =>
      let jobs2 := s.jobs.map (fun kv =>
        (kv.1, if kv.1 ∈ B.jobIds ∧ kv.2.status = JobStatus.pending then
                 { kv.2 with status := JobStatus.cancelled }
               else kv.2))
      let batches2 := s.batches.map (fun kv =>
        (kv.1, if kv.1 = bid then { kv.2 with status := JobStatus.cancelled } else kv.2))
      ({ s with jobs := jobs2, batches := batches2 }, true)

/-- Statuses Python's `cleanup_old_batches` treats as terminal:
`[JobStatus.COMPLETED, JobStatus.FAILED, JobStatus.CANCELLED]`. -/
def terminalStatuses : List JobStatus := [.completed, .failed, .cancelled]

/-- Embeds `cleanup_old_batches(days_old)`: drop every batch whose status
is terminal and whose `created_at` is before `now - days_old` days, drop
the correspondingly old entries of the `completed_jobs` dict, and return
`None` (the Python function has no return statement); the second component
models the returned value. -/
def cleanupOldBatches (s : SysState) (now days : Int) : SysState × Option Nat :=
  let cutoff := now - days * 86400
  let batches2 := s.batches.filter (fun kv =>
    !(decide (kv.2.status ∈ terminalStatuses) && decide (kv.2.created_at < cutoff)))
  let completed2 := s.completedIds.filter (fun jid =>
    !(match (getEntry s.jobs jid).bind BatchJob.completed_at with
      | some tc => decide (tc < cutoff)
      | none => false))
  ({ s with batches := batches2, completedIds := completed2 }, none)

/-- Fresh `PENDING` job as built by the three batch-creation methods. -/
def mkPendingJob (jid ty : String) (rq : InputData) (prio : JobPriority)
    (t : Int) : BatchJob :=
  { id := jid, job_type := ty, input_data := rq, priority := prio,
    status := .pending, created_at := t }

/-- Embeds the common body of `create_video_batch` / `create_audio_batch` /
`create_translation_batch` with batch id `bid` (a fresh UUID string in
Python) and creation time `t`: build one `PENDING` job per request with id
`f"{bid}_{ty}_{i}"`, push each onto the queue, and record the batch with
`total_jobs = len(jobs)` and the heuristic `estimated_duration`. -/
def createBatchState (s : SysState) (bid nm ty : String) (reqs : List InputData)
    (prio : JobPriority) (t : Int) : SysState :=
  let newJobs : List (String × BatchJob) :=
    reqs.enum.map (fun p =>
      (mkJobId bid ty p.1, mkPendingJob (mkJobId bid ty p.1) ty p.2 prio t))
  let B : BatchRequest :=
    { id := bid, name := nm, jobIds := newJobs.map Prod.fst, created_at := t,
      total_jobs := newJobs.length,
      estimated_duration := some (estimateBatchDuration s.maxWorkers (newJobs.map Prod.snd)) }
  { s with jobs := s.jobs ++ newJobs,
           queue := s.queue ++ newJobs.map Prod.fst,
           batches := s.batches ++ [(bid, B)] }

/-- State reached when `_process_job` runs a dequeued job `j` (heap id
`jid`) whose executor returns `r`: the heap object becomes the completed
job, the id leaves the queue, enters the `completed_jobs` dict, and the
containing batch is re-aggregated. -/
def popSucceedState (s : SysState) (q1 q2 : List String) (jid : String)
    (j : BatchJob) (tS tE : Int) (r : String) : SysState :=
  let s1 : SysState :=
    { s with jobs := setJob s.jobs jid (succeedJob tS tE r j),
             queue := q1 ++ q2,
             completedIds := jid :: s.completedIds }
  updateBatchFor s1 jid

/-- State reached when `_process_job` runs a dequeued job `j` (heap id
`jid`) whose executor raises with message `e`: the heap object follows the
failure/retry path, the id is re-queued exactly when the retry branch
fires, and the containing batch is re-aggregated. -/
def popFailState (s : SysState) (q1 q2 : List String) (jid : String)
    (j : BatchJob) (tS tE : Int) (e : String) : SysState :=
  let fr := failJobStep tS tE e j
  let s1 : SysState :=
    { s with jobs := setJob s.jobs jid fr.1,
             queue := (q1 ++ q2) ++ (if fr.2 then [jid] else []),
             completedIds := jid :: s.completedIds }
  updateBatchFor s1 jid

/-- Observable label of an engine step: `execute jid` records that a task
executor was invoked on the job with id `jid`. -/
inductive Label
  | silent
  | execute (jid : String)
deriving DecidableEq, Repr

/-- Step relation of the engine: batch creation (any of the three typed
entry points), the dequeue loop of `_process_queue` (skipping `CANCELLED`
jobs without executing them, otherwise running `_process_job` to success
or failure), `cancel_batch`, and `cleanup_old_batches`.  The queue
position popped is arbitrary, which covers every priority order. -/
inductive Step : SysState → Label → SysState → Prop
  | createBatch (s : SysState) (bid nm ty : String) (reqs : List InputData)
      (prio : JobPriority) (t : Int)
      (hty : ty = "video" ∨ ty = "audio" ∨ ty = "translation")
      (hund : '_' ∉ bid.data)
      (hfreshB : getEntry s.batches bid = none)
      (hfreshJ : ∀ i : Nat, getEntry s.jobs (mkJobId bid ty i) = none) :
      Step s .silent (createBatchState s bid nm ty reqs prio t)
  | popSkip (s : SysState) (q1 q2 : List String) (jid : String)
      (hq : s.queue = q1 ++ jid :: q2)
      (hc : statusOf s jid = some .cancelled) :
      Step s .silent { s with queue := q1 ++ q2 }
  | popSucceed (s : SysState) (q1 q2 : List String) (jid : String)
      (j : BatchJob) (tS tE : Int) (r : String)
      (hq : s.queue = q1 ++ jid :: q2)
      (hj : getEntry s.jobs jid = some j)
      (hnc : j.status ≠ .cancelled) :
      Step s (.execute jid) (popSucceedState s q1 q2 jid j tS tE r)
  | popFail (s : SysState) (q1 q2 : List String) (jid : String)
      (j : BatchJob) (tS tE : Int) (e : String)
      (hq : s.queue = q1 ++ jid :: q2)
      (hj : getEntry s.jobs jid = some j)
      (hnc : j.status ≠ .cancelled) :
      Step s (.execute jid) (popFailState s q1 q2 jid j tS tE e)
  | cancelBatch (s : SysState) (bid : String) :
      Step s .silent (cancelBatchFn s bid).1
  | cleanup (s : SysState) (now days : Int) :
      Step s .silent (cleanupOldBatches s now days).1

/-- Freshly constructed service: empty heap, queue and batch table. -/
def initState (w : Nat) : SysState :=
  { maxWorkers := w, jobs := [], queue := [], batches := [], completedIds := [] }

/-- Reachability of an engine state from a fresh service by engine steps. -/
def Reaches (s s2 : SysState) : Prop :=
  Relation.ReflTransGen (fun a b => ∃ l, Step a l b) s s2

/-- Serialized form of one job, embedding the per-job dict written by
`_save_persistent_data`: `priority` as its numeric `.value`, `status` as
its string `.value`, timestamps in their exactly-reversible isoformat
encoding (modelled as the integer timestamp itself). -/
structure JobData where
  id : String
  job_type : String
  input_data : InputData
  priority : Nat
  status : String
  created_at : Int
  started_at : Option Int
  completed_at : Option Int
  progress : ℚ
  result : Option String
  error : Option String
  retry_count : Nat
  max_retries : Nat
deriving DecidableEq, Repr

/-- Serialized form of one batch, embedding the per-batch dict written by
`_save_persistent_data` (jobs embedded in order, enums and timestamps
stringified). -/
structure BatchData where
  id : String
  name : String
  jobs : List JobData
  created_at : Int
  total_jobs : Nat
  completed_jobs : Nat
  failed_jobs : Nat
  status : String
  estimated_duration : Option ℚ
  actual_duration : Option ℚ
deriving DecidableEq, Repr

/-- Embeds the job-serialization loop of `_save_persistent_data`. -/
def serJob (j : BatchJob) : JobData :=
  { id := j.id, job_type := j.job_type, input_data := j.input_data,
    priority := j.priority.value, status := j.status.str,
    created_at := j.created_at, started_at := j.started_at,
    completed_at := j.completed_at, progress := j.progress,
    result := j.result, error := j.error, retry_count := j.retry_count,
    max_retries := j.max_retries }

/-- Embeds the per-job branch of `_load_persistent_data`:
`BatchJob(**job_data)` followed by `datetime.fromisoformat` on the
timestamps and the `JobPriority`/`JobStatus` enum constructors, which
raise (modelled as `none`) on values outside the enums. -/
def loadJob (d : JobData) : Option BatchJob :=
  match JobPriority.ofValueOpt d.priority, JobStatus.ofStrOpt d.status with
  | some p, some st =>
      some { id := d.id, job_type := d.job_type, input_data := d.input_data,
             priority := p, status := st, created_at := d.created_at,
             started_at := d.started_at, completed_at := d.completed_at,
             progress := d.progress, result := d.result, error := d.error,
             retry_count := d.retry_count, max_retries := d.max_retries }
  | _, _ => none

/-- Resolves a batch's job ids through the heap, embedding the direct
iteration over the shared `batch_request.jobs` objects (in Python the
references always resolve; a dangling id yields `none`). -/
def resolveJobs (store : List (String × BatchJob)) :
    List String → Option (List BatchJob)
  | [] => some []
  | jid :: rest =>
    match getEntry store jid, resolveJobs store rest with
    | some j, some js => some (j :: js)
    | _, _ => none

/-- Embeds the batch-serialization loop of `_save_persistent_data`. -/
def serBatch (store : List (String × BatchJob)) (B : BatchRequest) :
    Option BatchData :=
  match resolveJobs store B.jobIds with
  | some js =>
      some { id := B.id, name := B.name, jobs := js.map serJob,
             created_at := B.created_at, total_jobs := B.total_jobs,
             completed_jobs := B.completed_jobs, failed_jobs := B.failed_jobs,
             status := B.status.str, estimated_duration := B.estimated_duration,
             actual_duration := B.actual_duration }
  | none => none

/-- Deserializes a list of job dicts, embedding the job loop of
`_load_persistent_data`. -/
def loadJobs : List JobData → Option (List BatchJob)
  | [] => some []
  | d :: rest =>
    match loadJob d, loadJobs rest with
    | some j, some js => some (j :: js)
    | _, _ => none

/-- Embeds the per-batch branch of `_load_persistent_data`: rebuild the
`BatchRequest`, its status enum and its fresh job objects (returned as
heap entries keyed by each job's own id). -/
def loadBatch (d : BatchData) : Option (BatchRequest × List (String × BatchJob)) :=
  match JobStatus.ofStrOpt d.status, loadJobs d.jobs with
  | some st, some js =>
      some ({ id := d.id, name := d.name, jobIds := js.map BatchJob.id,
              created_at := d.created_at, total_jobs := d.total_jobs,
              completed_jobs := d.completed_jobs, failed_jobs := d.failed_jobs,
              status := st, estimated_duration := d.estimated_duration,
              actual_duration := d.actual_duration },
            js.map (fun j => (j.id, j)))
  | _, _ => none

/-- Serializes a list of batch-table entries against a job heap,
embedding the outer loop of `_save_persistent_data`. -/
def saveBatches (store : List (String × BatchJob)) :
    List (String × BatchRequest) → Option (List (String × BatchData))
  | [] => some []
  | kv :: rest =>
    match serBatch store kv.2, saveBatches store rest with
    | some bd, some tail => some ((kv.1, bd) :: tail)
    | _, _ => none

/-- Embeds the `batch_requests` table written by `_save_persistent_data`
(the only state the snapshot file carries besides `stats`). -/
def saveData (s : SysState) : Option (List (String × BatchData)) :=
  saveBatches s.jobs s.batches

/-- Embeds `_load_persistent_data` on a snapshot: rebuild the
`batch_requests` table of a fresh instance together with the heap of the
freshly constructed job objects. -/
def loadData : List (String × BatchData) →
    Option (List (String × BatchRequest) × List (String × BatchJob))
  | [] => some ([], [])
  | kv :: rest =>
    match loadBatch kv.2, loadData rest with
    | some pr, some tail => some ((kv.1, pr.1) :: tail.1, pr.2 ++ tail.2)
    | _, _ => none

section Helpers

variable {α : Type}

lemma getEntry_append_some {l1 l2 : List (String × α)} {k : String} {v : α}
    (h : getEntry l1 k = some v) : getEntry (l1 ++ l2) k = some v := by
  induction l1 with
  | nil => simp [getEntry] at h
  | cons kv rest ih =>
    by_cases hk : kv.1 = k
    · simpa [getEntry, hk] using h
    · simp [getEntry, hk] at h ⊢
      exact ih h

lemma getEntry_append_none {l1 l2 : List (String × α)} {k : String}
    (h : getEntry l1 k = none) : getEntry (l1 ++ l2) k = getEntry l2 k := by
  induction l1 with
  | nil => simp
  | cons kv rest ih =>
    by_cases hk : kv.1 = k
    · simp [getEntry, hk] at h
    · simp [getEntry, hk] at h ⊢
      exact ih h

lemma getEntry_map_val (f : String → α → α) (l : List (String × α)) (k : String) :
    getEntry (l.map (fun kv => (kv.1, f kv.1 kv.2))) k = (getEntry l k).map (f k) := by
  induction l with
  | nil => simp [getEntry]
  | cons kv rest ih =>
    by_cases hk : kv.1 = k
    · subst hk; simp [getEntry]
    · simp [getEntry, hk, ih]

lemma getEntry_none_iff {l : List (String × α)} {k : String} :
    getEntry l k = none ↔ ∀ kv ∈ l, kv.1 ≠ k := by
  induction l with
  | nil => simp [getEntry]
  | cons kv rest ih =>
    by_cases hk : kv.1 = k
    · simp [getEntry, hk]
    · simp [getEntry, hk, ih]

lemma getEntry_some_mem {l : List (String × α)} {k : String} {v : α}
    (h : getEntry l k = some v) : (k, v) ∈ l := by
  induction l with
  | nil => simp [getEntry] at h
  | cons kv rest ih =>
    by_cases hk : kv.1 = k
    · simp [getEntry, hk] at h
      cases kv with
      | mk k1 v1 =>
        simp at hk h
        subst hk
        subst h
        exact List.mem_cons_self _ _
    · simp [getEntry, hk] at h
      exact List.mem_cons_of_mem _ (ih h)

lemma getEntry_isSome_of_key_mem {l : List (String × α)} {k : String}
    (h : k ∈ l.map Prod.fst) : ∃ v, getEntry l k = some v := by
  induction l with
  | nil => simp at h
  | cons kv rest ih =>
    by_cases hk : kv.1 = k
    · exact ⟨kv.2, by simp [getEntry, hk]⟩
    · have h2 : k ∈ rest.map Prod.fst := by
        rcases List.mem_map.mp h with ⟨x, hx, hx2⟩
        rcases List.mem_cons.mp hx with h3 | h3
        · exact absurd (h3 ▸ hx2) hk
        · exact List.mem_map.mpr ⟨x, h3, hx2⟩
      rcases ih h2 with ⟨v, hv⟩
      exact ⟨v, by simp [getEntry, hk, hv]⟩

lemma countP_cons_toNat (p : α → Bool) (a : α) (l : List α) :
    (a :: l).countP p = l.countP p + (p a).toNat := by
  rw [List.countP_cons]
  cases hp : p a <;> simp

lemma countP_pair_le (p q : α → Bool) (l : List α)
    (hpq : ∀ x ∈ l, ¬(p x = true ∧ q x = true)) :
    l.countP p + l.countP q ≤ l.length := by
  induction l with
  | nil => simp
  | cons a l ih =>
    have ha := hpq a (List.mem_cons_self a l)
    have ih2 := ih (fun x hx => hpq x (List.mem_cons_of_mem a hx))
    have hsum : (p a).toNat + (q a).toNat ≤ 1 := by
      cases hp : p a
      · cases hq : q a <;> simp
      · cases hq : q a
        · simp
        · exact absurd ⟨hp, hq⟩ ha
    rw [countP_cons_toNat, countP_cons_toNat, List.length_cons]
    omega

lemma countP_pair_eq_iff (p q : α → Bool) (l : List α)
    (hpq : ∀ x ∈ l, ¬(p x = true ∧ q x = true)) :
    l.countP p + l.countP q = l.length ↔ ∀ x ∈ l, p x = true ∨ q x = true := by
  induction l with
  | nil => simp
  | cons a l ih =>
    have ha := hpq a (List.mem_cons_self a l)
    have htail := fun x hx => hpq x (List.mem_cons_of_mem a hx)
    have hle := countP_pair_le p q l htail
    have hsum : (p a).toNat + (q a).toNat ≤ 1 := by
      cases hp : p a
      · cases hq : q a <;> simp
      · cases hq : q a
        · simp
        · exact absurd ⟨hp, hq⟩ ha
    rw [countP_cons_toNat, countP_cons_toNat, List.length_cons]
    constructor
    · intro h
      have h1 : (p a).toNat + (q a).toNat = 1 := by omega
      have h2 : l.countP p + l.countP q = l.length := by omega
      intro x hx
      rcases List.mem_cons.mp hx with hx | hx
      · subst hx
        cases hp : p x
        · cases hq : q x
          · simp [hp, hq] at h1
          · exact Or.inr rfl
        · exact Or.inl rfl
      · exact (ih htail).mp h2 x hx
    · intro h
      have h1 : l.countP p + l.countP q = l.length :=
        (ih htail).mpr (fun x hx => h x (List.mem_cons_of_mem a hx))
      have h2 := h a (List.mem_cons_self a l)
      have h3 : (p a).toNat + (q a).toNat = 1 := by
        rcases h2 with h2 | h2
        · simp [h2]
          cases hq : q a
          · simp
          · exact absurd ⟨h2, hq⟩ ha
        · simp [h2]
          cases hp : p a
          · simp
          · exact absurd ⟨hp, h2⟩ ha
      omega

end Helpers

/-- Sample jobs for claim C2: distinct jobs sharing priority `MEDIUM`. -/
def cexC2a : BatchJob := mkPendingJob "b_video_0" "video" {} .medium 0

/-- Second sample job for claim C2, differing from `cexC2a` only in id. -/
def cexC2b : BatchJob := mkPendingJob "b_video_1" "video" {} .medium 0

/-- C2 counterexample: the ordering `BatchJob.__lt__` applies to queue
entries is not total — the two distinct jobs `cexC2a`/`cexC2b` share
priority `MEDIUM` and neither compares below the other, so no strict
total order (and in particular no enqueue-sequence tie-break) is applied. -/
theorem C2_counterexample :
    ¬ (∀ a b : BatchJob, a ≠ b → jobLT a b ∨ jobLT b a) := by
  intro h
  have hne : cexC2a ≠ cexC2b := by decide
  rcases h cexC2a cexC2b hne with hlt | hlt <;> revert hlt <;> decide

/-- C2 amended: `BatchJob.__lt__` compares by priority value ascending
only — it is a strict partial order whose sole key is the priority value,
and two jobs sharing a priority are incomparable (no secondary
enqueue-sequence key exists). -/
theorem C2_priority_only_order (a b c : BatchJob) :
    (a.priority.value < b.priority.value → jobLT a b) ∧
    (jobLT a b → a.priority.value < b.priority.value) ∧
    (¬ jobLT a a) ∧
    (jobLT a b → jobLT b c → jobLT a c) ∧
    (a.priority = b.priority → ¬ jobLT a b ∧ ¬ jobLT b a) := by
  unfold jobLT
  refine ⟨fun h => h, fun h => h, Nat.lt_irrefl _, Nat.lt_trans, fun h => ?_⟩
  rw [h]
  exact ⟨Nat.lt_irrefl _, Nat.lt_irrefl _⟩

/-- Witness for C2 amended at the two concrete equal-priority jobs. -/
theorem C2_priority_only_order_witness :
    ¬ jobLT cexC2a cexC2b ∧ ¬ jobLT cexC2b cexC2a :=
  (C2_priority_only_order cexC2a cexC2b cexC2b).2.2.2.2 rfl

/-- Core induction for claim C3: running `_process_job` with an
always-raising executor from a job that still has `k` retries left ends,
after `k` re-queues, in the `FAILED` record with `retry_count` at
`max_retries`, the error recorded, and the priority demoted `k` times. -/
theorem runAlwaysFailing_spec (tS tE : Int) (e : String) :
    ∀ (k : Nat) (j : BatchJob), j.retry_count + k = j.max_retries →
      ∀ gas : Nat, k < gas →
      runAlwaysFailing tS tE e gas j =
        ({ j with status := .failed, error := some e, started_at := some tS,
                  completed_at := some tE, retry_count := j.max_retries,
                  priority := demoteIter k j.priority }, k) := by
  intro k
  induction k with
  | zero =>
    intro j hk gas hgas
    match gas, hgas with
    | g + 1, _ =>
      have hnr : ¬ j.retry_count < j.max_retries := by omega
      simp [runAlwaysFailing, failJobStep, hnr, demoteIter]
      omega
  | succ k ih =>
    intro j hk gas hgas
    match gas, hgas with
    | g + 1, hgas =>
      have hr : j.retry_count < j.max_retries := by omega
      have hrec := ih { j with retry_count := j.retry_count + 1,
                               status := .pending, started_at := none,
                               completed_at := none, error := none,
                               priority := demote j.priority }
        (by simp; omega) g (by omega)
      simp [runAlwaysFailing, failJobStep, hr, hrec, demoteIter]

/-- C3: a job whose executor raises on every invocation, starting with
`retry_count = 0`, is re-queued exactly `max_retries` times and ends
`FAILED` with `retry_count = max_retries`, the error message recorded and
the priority demoted once per retry; each individual re-queue resets the
job to `PENDING` with `started_at`/`completed_at`/`error` cleared,
increments `retry_count` and demotes the priority one step, the step
being Urgent→High→Medium→Low and capped at Low. -/
theorem C3_retry_exhaustion (tS tE : Int) (e : String) (j : BatchJob)
    (h0 : j.retry_count = 0) (gas : Nat) (hgas : j.max_retries < gas) :
    (runAlwaysFailing tS tE e gas j).2 = j.max_retries ∧
    (runAlwaysFailing tS tE e gas j).1.status = .failed ∧
    (runAlwaysFailing tS tE e gas j).1.retry_count = j.max_retries ∧
    (runAlwaysFailing tS tE e gas j).1.error = some e ∧
    (runAlwaysFailing tS tE e gas j).1.priority = demoteIter j.max_retries j.priority ∧
    (∀ j2 : BatchJob, j2.retry_count < j2.max_retries →
      (failJobStep tS tE e j2).2 = true ∧
      (failJobStep tS tE e j2).1.status = .pending ∧
      (failJobStep tS tE e j2).1.started_at = none ∧
      (failJobStep tS tE e j2).1.completed_at = none ∧
      (failJobStep tS tE e j2).1.error = none ∧
      (failJobStep tS tE e j2).1.retry_count = j2.retry_count + 1 ∧
      (failJobStep tS tE e j2).1.priority = demote j2.priority) ∧
    demote .urgent = .high ∧ demote .high = .medium ∧
    demote .medium = .low ∧ demote .low = .low := by
  have hmain := runAlwaysFailing_spec tS tE e j.max_retries j (by omega) gas hgas
  refine ⟨by simp [hmain], by simp [hmain], by simp [hmain], by simp [hmain],
          by simp [hmain], ?_, by decide, by decide, by decide, by decide⟩
  intro j2 hj2
  simp [failJobStep, hj2]

/-- Witness for C3 at a concrete always-failing video job
(`max_retries = 3`, gas 4). -/
theorem C3_retry_exhaustion_witness :
    (runAlwaysFailing 1 2 "boom" 4 (mkPendingJob "b_video_0" "video" {} .urgent 0)).2 = 3 ∧
    (runAlwaysFailing 1 2 "boom" 4 (mkPendingJob "b_video_0" "video" {} .urgent 0)).1.status = .failed := by
  have h := C3_retry_exhaustion 1 2 "boom"
    (mkPendingJob "b_video_0" "video" {} .urgent 0) (by decide) 4 (by decide)
  exact ⟨h.1, h.2.1⟩

/-- Per-job cost exactly as claim C7 words it, including its assertion of
"10 per job of unknown type"; to be compared against the source-derived
`jobEstimate`. -/
def claimJobCost (j : BatchJob) : ℚ :=
  if j.job_type = "video" then
    30 * (j.input_data.duration.getD 5 / 5) *
      qualityMultiplier (j.input_data.quality.getD "medium")
  else if j.job_type = "audio" then
    5 * (((j.input_data.text.getD "").length : ℚ) / 100)
  else if j.job_type = "translation" then
    2 * (((j.input_data.text.getD "").length : ℚ) / 200)
  else 10

/-- Batch duration exactly as claim C7 words it: sum of per-job costs
scaled by `min(max_workers, job_count) / job_count`. -/
def claimEstimate (w : Nat) (jobs : List BatchJob) : ℚ :=
  (jobs.map claimJobCost).sum * ((min w jobs.length : Nat) : ℚ) / (jobs.length : ℚ)

/-- Per-job cost as claim C7 must be amended: identical to the claim's
formula except that a job of unknown type contributes nothing — the
source's `if/elif` chain has no `else` branch, so the `10.0` default base
cost is looked up but never added. -/
def amendedJobCost (j : BatchJob) : ℚ :=
  if j.job_type = "video" then
    30 * (j.input_data.duration.getD 5 / 5) *
      qualityMultiplier (j.input_data.quality.getD "medium")
  else if j.job_type = "audio" then
    5 * (((j.input_data.text.getD "").length : ℚ) / 100)
  else if j.job_type = "translation" then
    2 * (((j.input_data.text.getD "").length : ℚ) / 200)
  else 0

/-- Sample job of unknown type for claim C7. -/
def cexC7job : BatchJob := mkPendingJob "b_mystery_0" "mystery" {} .medium 0

/-- C7 counterexample: on a single job of unknown type the source
estimator yields 0, not the 10 the claim's formula prescribes. -/
theorem C7_counterexample :
    estimateBatchDuration 4 [cexC7job] = 0 ∧
    claimEstimate 4 [cexC7job] = 10 ∧
    estimateBatchDuration 4 [cexC7job] ≠ claimEstimate 4 [cexC7job] := by
  have h1 : estimateBatchDuration 4 [cexC7job] = 0 := by
    simp [estimateBatchDuration, cexC7job, mkPendingJob, jobEstimate, baseEstimate]
  have h2 : claimEstimate 4 [cexC7job] = 10 := by
    simp [claimEstimate, cexC7job, mkPendingJob, claimJobCost]
  refine ⟨h1, h2, ?_⟩
  rw [h1, h2]
  norm_num

lemma foldl_add_map (f : BatchJob → ℚ) :
    ∀ (l : List BatchJob) (a : ℚ),
      l.foldl (fun acc j => acc + f j) a = a + (l.map f).sum := by
  intro l
  induction l with
  | nil => intro a; simp
  | cons j l ih =>
    intro a
    simp [List.foldl_cons, ih, add_assoc]

lemma jobEstimate_eq_amended (j : BatchJob) : jobEstimate j = amendedJobCost j := by
  unfold jobEstimate amendedJobCost baseEstimate
  by_cases hv : j.job_type = "video"
  · simp [hv]
  · by_cases ha : j.job_type = "audio"
    · simp [hv, ha]
    · by_cases ht : j.job_type = "translation"
      · simp [hv, ha, ht]
      · simp [hv, ha, ht]

/-- C7 amended: for every non-empty batch the source estimate equals the
claim's formula amended at one point — the sum of the claim's per-type
complexity-scaled costs, with unknown-type jobs contributing 0 instead of
10, scaled by `min(max_workers, job_count) / job_count`. -/
theorem C7_estimate_formula (w : Nat) (jobs : List BatchJob) (h : jobs ≠ []) :
    estimateBatchDuration w jobs =
      (jobs.map amendedJobCost).sum * ((min w jobs.length : Nat) : ℚ) / (jobs.length : ℚ) := by
  unfold estimateBatchDuration
  have hfold := foldl_add_map jobEstimate jobs 0
  rw [hfold]
  have hmap : jobs.map jobEstimate = jobs.map amendedJobCost :=
    List.map_congr_left (fun j _ => jobEstimate_eq_amended j)
  rw [hmap]
  ring

/-- Witness for C7 amended on a concrete one-job video batch. -/
theorem C7_estimate_formula_witness :
    estimateBatchDuration 4 [mkPendingJob "b_video_0" "video" {} .medium 0] =
      ([mkPendingJob "b_video_0" "video" {} .medium 0].map amendedJobCost).sum *
        ((min 4 [mkPendingJob "b_video_0" "video" {} .medium 0].length : Nat) : ℚ) /
        (([mkPendingJob "b_video_0" "video" {} .medium 0].length : Nat) : ℚ) :=
  C7_estimate_formula 4 [mkPendingJob "b_video_0" "video" {} .medium 0] (by decide)

lemma takeWhile_until_underscore (l1 l2 : List Char) (h : ∀ c ∈ l1, c ≠ '_') :
    (l1 ++ '_' :: l2).takeWhile (fun c => c != '_') = l1 := by
  induction l1 with
  | nil => simp [List.takeWhile_cons]
  | cons a l ih =>
    have ha : a ≠ '_' := h a (List.mem_cons_self a l)
    have ih2 := ih (fun c hc => h c (List.mem_cons_of_mem a hc))
    simp [List.takeWhile_cons, ha, ih2]

lemma idHead_mkJobId (bid ty : String) (i : Nat) (hund : '_' ∉ bid.data) :
    idHead (mkJobId bid ty i) = bid := by
  unfold idHead mkJobId
  have h1 : ("_" : String).data = ['_'] := rfl
  have hdata : (bid ++ "_" ++ ty ++ "_" ++ toString i).data
      = bid.data ++ '_' :: (ty.data ++ '_' :: (toString i).data) := by
    simp [String.data_append, h1]
  rw [hdata, takeWhile_until_underscore bid.data _ (fun c hc he => hund (he ▸ hc))]

/-- C10: for jobs created by any of the three batch-submission operations
(ids of the shape `f"{batch_id}_{ty}_{i}"`), the id segment before the
first underscore is exactly the containing batch's id whenever the batch
id itself contains no underscore (UUID4 strings never do); consequently
the aggregator's `job.id.split('_')[0]` lookup resolves to the containing
batch's entry. -/
theorem C10_id_head_is_batch_id (bid : String) (i : Nat) (hund : '_' ∉ bid.data) :
    idHead (mkJobId bid "video" i) = bid ∧
    idHead (mkJobId bid "audio" i) = bid ∧
    idHead (mkJobId bid "translation" i) = bid ∧
    (∀ (s : SysState) (B : BatchRequest), getEntry s.batches bid = some B →
      getEntry s.batches (idHead (mkJobId bid "video" i)) = some B) := by
  refine ⟨idHead_mkJobId bid "video" i hund, idHead_mkJobId bid "audio" i hund,
          idHead_mkJobId bid "translation" i hund, ?_⟩
  intro s B hB
  rw [idHead_mkJobId bid "video" i hund]
  exact hB

/-- Witness for C10 at a concrete UUID4-shaped batch id. -/
theorem C10_id_head_is_batch_id_witness :
    idHead (mkJobId "550e8400-e29b-41d4-a716-446655440000" "video" 0) =
      "550e8400-e29b-41d4-a716-446655440000" :=
  (C10_id_head_is_batch_id "550e8400-e29b-41d4-a716-446655440000" 0 (by decide)).1

lemma updateBatchStatus_proj (store : List (String × BatchJob)) (B : BatchRequest) :
    (updateBatchStatus store B).id = B.id ∧
    (updateBatchStatus store B).name = B.name ∧
    (updateBatchStatus store B).jobIds = B.jobIds ∧
    (updateBatchStatus store B).created_at = B.created_at ∧
    (updateBatchStatus store B).total_jobs = B.total_jobs ∧
    (updateBatchStatus store B).completed_jobs = countStatus store B.jobIds .completed ∧
    (updateBatchStatus store B).failed_jobs = countStatus store B.jobIds .failed := by
  by_cases hc : countStatus store B.jobIds JobStatus.completed +
      countStatus store B.jobIds JobStatus.failed = B.total_jobs
  · simp only [updateBatchStatus, hc, if_true, eq_self_iff_true]
    split <;> simp
  · simp only [updateBatchStatus, if_neg hc]
    simp

lemma updateBatchStatus_status_of_eq (store : List (String × BatchJob)) (B : BatchRequest)
    (h : countStatus store B.jobIds .completed + countStatus store B.jobIds .failed = B.total_jobs) :
    (updateBatchStatus store B).status =
      (if countStatus store B.jobIds .failed = 0 then JobStatus.completed
       else if countStatus store B.jobIds .completed = 0 then JobStatus.failed
       else JobStatus.completed) := by
  simp only [updateBatchStatus, if_pos h]
  split <;> simp

lemma updateBatchStatus_status_of_ne (store : List (String × BatchJob)) (B : BatchRequest)
    (h : countStatus store B.jobIds .completed + countStatus store B.jobIds .failed ≠ B.total_jobs) :
    (updateBatchStatus store B).status = B.status := by
  simp only [updateBatchStatus, if_neg h]

lemma status_pair_disjoint (store : List (String × BatchJob)) (ids : List String) :
    ∀ x ∈ ids, ¬(decide ((getEntry store x).map BatchJob.status = some JobStatus.completed) = true ∧
                 decide ((getEntry store x).map BatchJob.status = some JobStatus.failed) = true) := by
  intro x _ ⟨h1, h2⟩
  have h1p := of_decide_eq_true h1
  have h2p := of_decide_eq_true h2
  rw [h1p] at h2p
  exact Option.noConfusion h2p (fun h => JobStatus.noConfusion h)

lemma countStatus_pair_le (store : List (String × BatchJob)) (ids : List String) :
    countStatus store ids .completed + countStatus store ids .failed ≤ ids.length :=
  countP_pair_le _ _ ids (status_pair_disjoint store ids)

lemma countStatus_pair_eq_iff (store : List (String × BatchJob)) (ids : List String) :
    countStatus store ids .completed + countStatus store ids .failed = ids.length ↔
      ∀ jid ∈ ids, (getEntry store jid).map BatchJob.status = some JobStatus.completed ∨
        (getEntry store jid).map BatchJob.status = some JobStatus.failed := by
  rw [countStatus, countStatus, countP_pair_eq_iff _ _ ids (status_pair_disjoint store ids)]
  constructor
  · intro h jid hjid
    rcases h jid hjid with h2 | h2
    · exact Or.inl (of_decide_eq_true h2)
    · exact Or.inr (of_decide_eq_true h2)
  · intro h jid hjid
    rcases h jid hjid with h2 | h2
    · exact Or.inl (decide_eq_true h2)
    · exact Or.inr (decide_eq_true h2)

/-- Store for claim C4: a single job that is already `CANCELLED`. -/
def cexC4store : List (String × BatchJob) :=
  [("b_video_0", { mkPendingJob "b_video_0" "video" {} .medium 0 with status := .cancelled })]

/-- Batch for claim C4 containing only the cancelled job. -/
def cexC4batch : BatchRequest :=
  { id := "b", name := "n", jobIds := ["b_video_0"], created_at := 0, total_jobs := 1 }

/-- C4 counterexample: in a batch whose single job is `CANCELLED`, every
contained job is terminal and `failed_jobs = 0`, yet the aggregator leaves
the batch status at `PENDING` instead of the `COMPLETED` the claim
derives — it never sets `PROCESSING` either. -/
theorem C4_counterexample :
    (∀ jid ∈ cexC4batch.jobIds,
        (getEntry cexC4store jid).map BatchJob.status = some JobStatus.cancelled) ∧
    (updateBatchStatus cexC4store cexC4batch).failed_jobs = 0 ∧
    (updateBatchStatus cexC4store cexC4batch).status = .pending ∧
    (updateBatchStatus cexC4store cexC4batch).status ≠ .completed := by
  refine ⟨by decide, by decide, by decide, by decide⟩

/-- C4 amended: the aggregator recounts `completed_jobs`/`failed_jobs` and
changes the batch status only when `completed_jobs + failed_jobs` reaches
`total_jobs`, i.e. (whenever `total_jobs` is the number of contained jobs)
exactly when every contained job is `COMPLETED` or `FAILED`; the status
then becomes `COMPLETED` if nothing failed, `FAILED` if nothing
completed, and `COMPLETED` on a mix.  While any job is outside
{`COMPLETED`, `FAILED`} — including batches whose remaining jobs are
`CANCELLED` — the batch status is left unchanged (it is never set to
`PROCESSING`). -/
theorem C4_aggregator_status (store : List (String × BatchJob)) (B : BatchRequest)
    (htot : B.total_jobs = B.jobIds.length) :
    ((∀ jid ∈ B.jobIds, (getEntry store jid).map BatchJob.status = some JobStatus.completed ∨
        (getEntry store jid).map BatchJob.status = some JobStatus.failed) →
      (updateBatchStatus store B).status =
        (if (updateBatchStatus store B).failed_jobs = 0 then JobStatus.completed
         else if (updateBatchStatus store B).completed_jobs = 0 then JobStatus.failed
         else JobStatus.completed)) ∧
    ((∃ jid ∈ B.jobIds, ¬((getEntry store jid).map BatchJob.status = some JobStatus.completed ∨
        (getEntry store jid).map BatchJob.status = some JobStatus.failed)) →
      (updateBatchStatus store B).status = B.status) ∧
    (updateBatchStatus store B).completed_jobs = countStatus store B.jobIds .completed ∧
    (updateBatchStatus store B).failed_jobs = countStatus store B.jobIds .failed := by
  obtain ⟨-, -, -, -, -, hcmp, hfl⟩ := updateBatchStatus_proj store B
  refine ⟨?_, ?_, hcmp, hfl⟩
  · intro hall
    have hsum : countStatus store B.jobIds .completed + countStatus store B.jobIds .failed
        = B.total_jobs := by
      rw [htot]
      exact (countStatus_pair_eq_iff store B.jobIds).mpr hall
    rw [updateBatchStatus_status_of_eq store B hsum, hcmp, hfl]
  · intro ⟨jid, hjid, hnot⟩
    have hsum : countStatus store B.jobIds .completed + countStatus store B.jobIds .failed
        ≠ B.total_jobs := by
      rw [htot]
      intro heq
      exact hnot ((countStatus_pair_eq_iff store B.jobIds).mp heq jid hjid)
    exact updateBatchStatus_status_of_ne store B hsum

/-- Batch over a single still-`PENDING` job, for the C4 witness. -/
def cexC4batchPending : BatchRequest :=
  { id := "b", name := "n", jobIds := ["b_video_0"], created_at := 0, total_jobs := 1 }

/-- Witness for C4 amended: a batch whose single job is still `PENDING`
keeps its status. -/
theorem C4_aggregator_status_witness :
    (updateBatchStatus [("b_video_0", mkPendingJob "b_video_0" "video" {} .medium 0)]
      cexC4batchPending).status = cexC4batchPending.status := by
  have h := C4_aggregator_status
    [("b_video_0", mkPendingJob "b_video_0" "video" {} .medium 0)]
    cexC4batchPending (by decide)
  exact h.2.1 ⟨"b_video_0", by decide, by decide⟩

/-- C5: `cancel_batch` returns `False` exactly when the batch id is
unknown; on a known batch it returns `True`, sets status `CANCELLED` on
exactly those of the batch's jobs that are currently `PENDING`, and
leaves every other job object — in particular every `PROCESSING`,
`COMPLETED` and `FAILED` one — completely unchanged. -/
theorem C5_cancel_batch (s : SysState) (bid : String) :
    ((cancelBatchFn s bid).2 = false ↔ getEntry s.batches bid = none) ∧
    (∀ B : BatchRequest, getEntry s.batches bid = some B →
      (cancelBatchFn s bid).2 = true ∧
      (∀ (k : String) (j : BatchJob), getEntry s.jobs k = some j →
        getEntry (cancelBatchFn s bid).1.jobs k =
          some (if k ∈ B.jobIds ∧ j.status = JobStatus.pending then
                  { j with status := JobStatus.cancelled } else j)) ∧
      (∀ (k : String) (j : BatchJob), getEntry s.jobs k = some j →
        j.status ≠ JobStatus.pending →
        getEntry (cancelBatchFn s bid).1.jobs k = some j)) := by
  cases hB : getEntry s.batches bid with
  | none =>
    constructor
    · simp [cancelBatchFn, hB]
    · intro B hB2
      exact Option.noConfusion hB2
  | some B0 =>
    constructor
    · simp [cancelBatchFn, hB]
    · intro B hB2
      injection hB2 with hB3
      subst hB3
      have hjobs : (cancelBatchFn s bid).1.jobs =
          s.jobs.map (fun kv =>
            (kv.1, if kv.1 ∈ B0.jobIds ∧ kv.2.status = JobStatus.pending then
                     { kv.2 with status := JobStatus.cancelled } else kv.2)) := by
        simp [cancelBatchFn, hB]
      have hmap := getEntry_map_val
        (fun k j => if k ∈ B0.jobIds ∧ j.status = JobStatus.pending then
          { j with status := JobStatus.cancelled } else j) s.jobs
      refine ⟨by simp [cancelBatchFn, hB], ?_, ?_⟩
      · intro k j hk
        rw [hjobs, hmap k, hk]
        rfl
      · intro k j hk hnp
        rw [hjobs, hmap k, hk]
        simp [hnp]

/-- Service state for the C5 witness: one batch of three jobs, two still
`PENDING` and one `PROCESSING` (the spec's cancellation example). -/
def wC5s : SysState :=
  { maxWorkers := 4,
    jobs := [("b_video_0", mkPendingJob "b_video_0" "video" {} .medium 0),
             ("b_video_1", mkPendingJob "b_video_1" "video" {} .medium 0),
             ("b_video_2", { mkPendingJob "b_video_2" "video" {} .medium 0 with
                               status := .processing, started_at := some 5 })],
    queue := ["b_video_0", "b_video_1"],
    batches := [("b", { id := "b", name := "n",
                        jobIds := ["b_video_0", "b_video_1", "b_video_2"],
                        created_at := 0, total_jobs := 3 })],
    completedIds := [] }

/-- Witness for C5 on `wC5s`: both `PENDING` jobs become `CANCELLED`, the
`PROCESSING` one is untouched, and the call returns `True`. -/
theorem C5_cancel_batch_witness :
    (cancelBatchFn wC5s "b").2 = true ∧
    getEntry (cancelBatchFn wC5s "b").1.jobs "b_video_0" =
      some { mkPendingJob "b_video_0" "video" {} .medium 0 with status := .cancelled } ∧
    getEntry (cancelBatchFn wC5s "b").1.jobs "b_video_1" =
      some { mkPendingJob "b_video_1" "video" {} .medium 0 with status := .cancelled } ∧
    getEntry (cancelBatchFn wC5s "b").1.jobs "b_video_2" =
      some { mkPendingJob "b_video_2" "video" {} .medium 0 with
               status := .processing, started_at := some 5 } := by
  obtain ⟨hret, hall, hkeep⟩ := (C5_cancel_batch wC5s "b").2
    { id := "b", name := "n", jobIds := ["b_video_0", "b_video_1", "b_video_2"],
      created_at := 0, total_jobs := 3 } rfl
  refine ⟨hret, ?_, ?_, ?_⟩
  · have h := hall "b_video_0" (mkPendingJob "b_video_0" "video" {} .medium 0) rfl
    simpa using h
  · have h := hall "b_video_1" (mkPendingJob "b_video_1" "video" {} .medium 0) rfl
    simpa using h
  · exact hkeep "b_video_2"
      { mkPendingJob "b_video_2" "video" {} .medium 0 with
          status := .processing, started_at := some 5 } rfl (by decide)

/-- Service state for claim C6: a `COMPLETED` batch created at time 0 and
another created nine days later (both terminal). -/
def wC6s : SysState :=
  { maxWorkers := 4, jobs := [], queue := [],
    batches := [("old", { id := "old", name := "o", jobIds := [], created_at := 0,
                          total_jobs := 0, status := .completed }),
                ("new", { id := "new", name := "nw", jobIds := [], created_at := 777600,
                          total_jobs := 0, status := .completed })],
    completedIds := [] }

/-- C6 counterexample: at `now` = ten days, `cleanup_old_batches(7)`
removes exactly one batch (the ten-day-old `COMPLETED` one, keeping the
one-day-old one), yet it returns `None`, not the removed count `1` the
claim prescribes. -/
theorem C6_counterexample :
    (cleanupOldBatches wC6s 864000 7).1.batches.map Prod.fst = ["new"] ∧
    wC6s.batches.length - (cleanupOldBatches wC6s 864000 7).1.batches.length = 1 ∧
    (cleanupOldBatches wC6s 864000 7).2 = none ∧
    (cleanupOldBatches wC6s 864000 7).2 ≠ some 1 := by
  refine ⟨by decide, by decide, by decide, by decide⟩

/-- C6 amended: `cleanup_old_batches` keeps exactly the batches that are
not (terminal and older than the day threshold), removing all others and
leaving the job heap, the queue and the worker bound untouched — but it
returns `None`; the removed count is only logged, never returned. -/
theorem C6_cleanup (s : SysState) (now days : Int) :
    (∀ kv : String × BatchRequest,
      kv ∈ (cleanupOldBatches s now days).1.batches ↔
        kv ∈ s.batches ∧
          ¬(kv.2.status ∈ terminalStatuses ∧ kv.2.created_at < now - days * 86400)) ∧
    (cleanupOldBatches s now days).2 = none ∧
    (cleanupOldBatches s now days).1.jobs = s.jobs ∧
    (cleanupOldBatches s now days).1.queue = s.queue ∧
    (cleanupOldBatches s now days).1.maxWorkers = s.maxWorkers := by
  refine ⟨?_, rfl, rfl, rfl, rfl⟩
  intro kv
  simp only [cleanupOldBatches, List.mem_filter, Bool.and_eq_true, Bool.not_eq_true,
    Bool.not_eq_true', Bool.and_eq_false_iff, decide_eq_false_iff_not, decide_eq_true_eq]
  constructor
  · intro ⟨hmem, hcond⟩
    refine ⟨hmem, ?_⟩
    intro ⟨hterm, hold⟩
    rcases hcond with h | h
    · exact h hterm
    · exact h hold
  · intro ⟨hmem, hcond⟩
    refine ⟨hmem, ?_⟩
    by_cases hterm : kv.2.status ∈ terminalStatuses
    · exact Or.inr (fun hold => hcond ⟨hterm, hold⟩)
    · exact Or.inl hterm

/-- Witness for C6 amended at the concrete `wC6s` state. -/
theorem C6_cleanup_witness :
    (cleanupOldBatches wC6s 864000 7).2 = none :=
  (C6_cleanup wC6s 864000 7).2.1

lemma roundtrip_status (st : JobStatus) : JobStatus.ofStrOpt st.str = some st := by
  cases st <;> rfl

lemma roundtrip_priority (p : JobPriority) : JobPriority.ofValueOpt p.value = some p := by
  cases p <;> rfl

lemma roundtrip_job (j : BatchJob) : loadJob (serJob j) = some j := by
  unfold loadJob serJob
  simp only [roundtrip_priority, roundtrip_status]

lemma loadJobs_map_ser (js : List BatchJob) : loadJobs (js.map serJob) = some js := by
  induction js with
  | nil => rfl
  | cons j rest ih => simp [loadJobs, roundtrip_job, ih]

lemma resolveJobs_spec (store : List (String × BatchJob))
    (hkeys : ∀ kv ∈ store, kv.2.id = kv.1) :
    ∀ ids : List String, (∀ jid ∈ ids, (getEntry store jid).isSome) →
      ∃ js : List BatchJob, resolveJobs store ids = some js ∧
        js.map BatchJob.id = ids ∧
        ∀ j ∈ js, getEntry store j.id = some j := by
  intro ids
  induction ids with
  | nil => exact fun _ => ⟨[], rfl, rfl, by simp⟩
  | cons jid rest ih =>
    intro h
    obtain ⟨j, hj⟩ := Option.isSome_iff_exists.mp (h jid (List.mem_cons_self jid rest))
    obtain ⟨js, hjs, hmapid, hmem⟩ := ih (fun x hx => h x (List.mem_cons_of_mem jid hx))
    have hid : j.id = jid := hkeys (jid, j) (getEntry_some_mem hj)
    refine ⟨j :: js, ?_, ?_, ?_⟩
    · simp [resolveJobs, hj, hjs]
    · simp [hmapid, hid]
    · intro x hx
      rcases List.mem_cons.mp hx with hx | hx
      · subst hx
        rw [hid]
        exact hj
      · exact hmem x hx

lemma batch_roundtrip (store : List (String × BatchJob)) (B : BatchRequest)
    (hkeys : ∀ kv ∈ store, kv.2.id = kv.1)
    (h : ∀ jid ∈ B.jobIds, (getEntry store jid).isSome) :
    ∃ (bd : BatchData) (entries : List (String × BatchJob)),
      serBatch store B = some bd ∧
      loadBatch bd = some (B, entries) ∧
      (∀ kv ∈ entries, getEntry store kv.1 = some kv.2) ∧
      entries.map Prod.fst = B.jobIds := by
  obtain ⟨js, hjs, hmapid, hmem⟩ := resolveJobs_spec store hkeys B.jobIds h
  have hser : serBatch store B = some
      { id := B.id, name := B.name, jobs := js.map serJob, created_at := B.created_at,
        total_jobs := B.total_jobs, completed_jobs := B.completed_jobs,
        failed_jobs := B.failed_jobs, status := B.status.str,
        estimated_duration := B.estimated_duration,
        actual_duration := B.actual_duration } := by
    simp [serBatch, hjs]
  have hload : loadBatch
      { id := B.id, name := B.name, jobs := js.map serJob, created_at := B.created_at,
        total_jobs := B.total_jobs, completed_jobs := B.completed_jobs,
        failed_jobs := B.failed_jobs, status := B.status.str,
        estimated_duration := B.estimated_duration,
        actual_duration := B.actual_duration } =
      some (B, js.map (fun j => (j.id, j))) := by
    simp only [loadBatch, roundtrip_status, loadJobs_map_ser, hmapid]
  refine ⟨_, js.map (fun j => (j.id, j)), hser, hload, ?_, ?_⟩
  · intro kv hkv
    rcases List.mem_map.mp hkv with ⟨j, hjmem, hkv2⟩
    rw [← hkv2]
    exact hmem j hjmem
  · rw [← hmapid]
    simp [Function.comp]

lemma saveLoad_batches (store : List (String × BatchJob))
    (hkeys : ∀ kv ∈ store, kv.2.id = kv.1) :
    ∀ bl : List (String × BatchRequest),
      (∀ kv ∈ bl, ∀ jid ∈ kv.2.jobIds, (getEntry store jid).isSome) →
      ∃ file pr, saveBatches store bl = some file ∧ loadData file = some pr ∧
        pr.1 = bl ∧
        (∀ kv ∈ pr.2, getEntry store kv.1 = some kv.2) ∧
        (∀ kv ∈ bl, ∀ jid ∈ kv.2.jobIds, ∃ v, getEntry pr.2 jid = some v) := by
  intro bl
  induction bl with
  | nil => exact fun _ => ⟨[], ([], []), rfl, rfl, rfl, by simp, by simp⟩
  | cons kv rest ih =>
    intro h
    obtain ⟨bd, entries, hser, hload, hstore, hkeysE⟩ :=
      batch_roundtrip store kv.2 hkeys (h kv (List.mem_cons_self kv rest))
    obtain ⟨file, pr, hfile, hpr, hpr1, hpr2, hpr3⟩ :=
      ih (fun x hx => h x (List.mem_cons_of_mem kv hx))
    refine ⟨(kv.1, bd) :: file, ((kv.1, kv.2) :: pr.1, entries ++ pr.2), ?_, ?_, ?_, ?_, ?_⟩
    · simp [saveBatches, hser, hfile]
    · simp [loadData, hload, hpr]
    · simp [hpr1]
    · intro x hx
      rcases List.mem_append.mp hx with hx | hx
      · exact hstore x hx
      · exact hpr2 x hx
    · intro x hx jid hjid
      rcases List.mem_cons.mp hx with hx | hx
      · subst hx
        have hkey : jid ∈ entries.map Prod.fst := hkeysE ▸ hjid
        obtain ⟨v, hv⟩ := getEntry_isSome_of_key_mem hkey
        exact ⟨v, getEntry_append_some hv⟩
      · obtain ⟨v, hv⟩ := hpr3 x hx jid hjid
        cases hE : getEntry entries jid with
        | some w => exact ⟨w, getEntry_append_some hE⟩
        | none => exact ⟨v, by rw [getEntry_append_none hE]; exact hv⟩

/-- C8: persistence round-trip — whenever every heap entry is keyed by its
job's own id and every batch's job references resolve (always true of
states the engine builds), serializing the batch table with
`_save_persistent_data` and deserializing it with `_load_persistent_data`
into a fresh instance reconstructs the batch table exactly (ids, names,
job-id lists, counters, statuses, durations, timestamps), and every
reconstructed job object equals the original heap object it round-trips,
enums and timestamps restored precisely. -/
theorem C8_persistence_roundtrip (s : SysState)
    (hkeys : ∀ kv ∈ s.jobs, kv.2.id = kv.1)
    (hres : ∀ kv ∈ s.batches, ∀ jid ∈ kv.2.jobIds, (getEntry s.jobs jid).isSome) :
    ∃ file loaded, saveData s = some file ∧ loadData file = some loaded ∧
      loaded.1 = s.batches ∧
      (∀ kv ∈ s.batches, ∀ jid ∈ kv.2.jobIds,
        getEntry loaded.2 jid = getEntry s.jobs jid) := by
  obtain ⟨file, pr, hfile, hpr, hpr1, hpr2, hpr3⟩ :=
    saveLoad_batches s.jobs hkeys s.batches hres
  refine ⟨file, pr, hfile, hpr, hpr1, ?_⟩
  intro kv hkv jid hjid
  obtain ⟨v, hv⟩ := hpr3 kv hkv jid hjid
  have hmem := getEntry_some_mem hv
  have hstore := hpr2 (jid, v) hmem
  rw [hv, hstore]

/-- Service state for the C8 witness: one batch holding two `COMPLETED`
jobs and one `PENDING` job (the spec's round-trip example). -/
def wC8s : SysState :=
  { maxWorkers := 4,
    jobs := [("b_video_0", { mkPendingJob "b_video_0" "video" {} .medium 3 with
                               status := .completed, started_at := some 10,
                               completed_at := some 20, progress := 100,
                               result := some "out0" }),
             ("b_video_1", { mkPendingJob "b_video_1" "video" {} .medium 3 with
                               status := .completed, started_at := some 11,
                               completed_at := some 25, progress := 100,
                               result := some "out1" }),
             ("b_video_2", mkPendingJob "b_video_2" "video" {} .medium 3)],
    queue := ["b_video_2"],
    batches := [("b", { id := "b", name := "n",
                        jobIds := ["b_video_0", "b_video_1", "b_video_2"],
                        created_at := 3, total_jobs := 3, completed_jobs := 2,
                        failed_jobs := 0 })],
    completedIds := ["b_video_0", "b_video_1"] }

/-- Witness for C8 at the concrete two-completed/one-pending state. -/
theorem C8_persistence_roundtrip_witness :
    ∃ file loaded, saveData wC8s = some file ∧ loadData file = some loaded ∧
      loaded.1 = wC8s.batches ∧
      (∀ kv ∈ wC8s.batches, ∀ jid ∈ kv.2.jobIds,
        getEntry loaded.2 jid = getEntry wC8s.jobs jid) :=
  C8_persistence_roundtrip wC8s (by decide) (by decide)

lemma getEntry_setJob (store : List (String × BatchJob)) (jid : String)
    (j : BatchJob) (k : String) :
    getEntry (setJob store jid j) k =
      (getEntry store k).map (fun v => if k = jid then j else v) := by
  unfold setJob
  exact getEntry_map_val (fun k1 v => if k1 = jid then j else v) store k

lemma getEntry_setJob_ne (store : List (String × BatchJob)) (jid : String)
    (j : BatchJob) (k : String) (h : k ≠ jid) :
    getEntry (setJob store jid j) k = getEntry store k := by
  rw [getEntry_setJob]
  cases getEntry store k <;> simp [h]

lemma updateBatchFor_jobs (s : SysState) (jid : String) :
    (updateBatchFor s jid).jobs = s.jobs := by
  unfold updateBatchFor
  cases h : getEntry s.batches (idHead jid) <;> simp [h]

lemma updateBatchFor_queue (s : SysState) (jid : String) :
    (updateBatchFor s jid).queue = s.queue := by
  unfold updateBatchFor
  cases h : getEntry s.batches (idHead jid) <;> simp [h]

lemma popSucceedState_jobs (s : SysState) (q1 q2 : List String) (jid : String)
    (j : BatchJob) (tS tE : Int) (r : String) :
    (popSucceedState s q1 q2 jid j tS tE r).jobs =
      setJob s.jobs jid (succeedJob tS tE r j) := by
  simp only [popSucceedState, updateBatchFor_jobs]

lemma popFailState_jobs (s : SysState) (q1 q2 : List String) (jid : String)
    (j : BatchJob) (tS tE : Int) (e : String) :
    (popFailState s q1 q2 jid j tS tE e).jobs =
      setJob s.jobs jid (failJobStep tS tE e j).1 := by
  simp only [popFailState, updateBatchFor_jobs]

lemma createBatchState_jobs (s : SysState) (bid nm ty : String)
    (reqs : List InputData) (prio : JobPriority) (t : Int) :
    (createBatchState s bid nm ty reqs prio t).jobs =
      s.jobs ++ reqs.enum.map (fun p =>
        (mkJobId bid ty p.1, mkPendingJob (mkJobId bid ty p.1) ty p.2 prio t)) := by
  simp only [createBatchState]

lemma cancelBatchFn_getEntry (s : SysState) (bid k : String) :
    (getEntry s.batches bid = none ∧ (cancelBatchFn s bid).1 = s) ∨
    (∃ B, getEntry s.batches bid = some B ∧
      getEntry (cancelBatchFn s bid).1.jobs k =
        (getEntry s.jobs k).map (fun v =>
          if k ∈ B.jobIds ∧ v.status = JobStatus.pending then
            { v with status := JobStatus.cancelled } else v)) := by
  cases hB : getEntry s.batches bid with
  | none => exact Or.inl ⟨rfl, by simp [cancelBatchFn, hB]⟩
  | some B =>
      refine Or.inr ⟨B, rfl, ?_⟩
      have hjobs : (cancelBatchFn s bid).1.jobs =
          s.jobs.map (fun kv =>
            (kv.1, if kv.1 ∈ B.jobIds ∧ kv.2.status = JobStatus.pending then
                     { kv.2 with status := JobStatus.cancelled } else kv.2)) := by
        simp [cancelBatchFn, hB]
      have hmap := getEntry_map_val
        (fun k1 v => if k1 ∈ B.jobIds ∧ v.status = JobStatus.pending then
          { v with status := JobStatus.cancelled } else v) s.jobs
      rw [hjobs, hmap k]

lemma statusOf_mk (s : SysState) (jid : String) (st : JobStatus)
    (h : statusOf s jid = some st) :
    ∃ j, getEntry s.jobs jid = some j ∧ j.status = st := by
  unfold statusOf at h
  cases hj : getEntry s.jobs jid with
  | none => rw [hj] at h; exact Option.noConfusion h
  | some j =>
      rw [hj, Option.map_some'] at h
      exact ⟨j, rfl, Option.some.inj h⟩

/-- C9: over the engine's step relation, a job whose heap object is
`CANCELLED` is never handed to a task executor (no step carrying the
`execute` label for it exists), and it stays `CANCELLED` across every
step — the dispatch loop discards it at pop time and nothing ever
rewrites a `CANCELLED` status. -/
theorem C9_cancelled_never_executed (s : SysState) (l : Label) (s2 : SysState)
    (hstep : Step s l s2) (jid : String)
    (hc : statusOf s jid = some .cancelled) :
    l ≠ Label.execute jid ∧ statusOf s2 jid = some .cancelled := by
  obtain ⟨j, hj, hjst⟩ := statusOf_mk s jid .cancelled hc
  cases hstep with
  | createBatch bid nm ty reqs prio t hty hund hfreshB hfreshJ =>
      refine ⟨by simp, ?_⟩
      unfold statusOf
      rw [createBatchState_jobs, getEntry_append_some hj, Option.map_some', hjst]
  | popSkip q1 q2 jid0 hq hcst =>
      exact ⟨by simp, hc⟩
  | popSucceed q1 q2 jid0 j0 tS tE r hq hj0 hnc =>
      have hne : jid ≠ jid0 := by
        intro he
        subst he
        rw [hj] at hj0
        injection hj0 with hj0e
        exact hnc (hj0e ▸ hjst)
      refine ⟨fun h2 => hne (Label.execute.inj h2).symm, ?_⟩
      unfold statusOf
      rw [popSucceedState_jobs, getEntry_setJob_ne _ _ _ _ hne, hj,
        Option.map_some', hjst]
  | popFail q1 q2 jid0 j0 tS tE e hq hj0 hnc =>
      have hne : jid ≠ jid0 := by
        intro he
        subst he
        rw [hj] at hj0
        injection hj0 with hj0e
        exact hnc (hj0e ▸ hjst)
      refine ⟨fun h2 => hne (Label.execute.inj h2).symm, ?_⟩
      unfold statusOf
      rw [popFailState_jobs, getEntry_setJob_ne _ _ _ _ hne, hj,
        Option.map_some', hjst]
  | cancelBatch bid =>
      refine ⟨by simp, ?_⟩
      rcases cancelBatchFn_getEntry s bid jid with ⟨-, hsame⟩ | ⟨B, hB, hlook⟩
      · rw [hsame]
        exact hc
      · unfold statusOf
        have hcond : ¬(jid ∈ B.jobIds ∧ j.status = JobStatus.pending) := by
          intro h2
          rw [hjst] at h2
          exact JobStatus.noConfusion h2.2
        rw [hlook, hj, Option.map_some', if_neg hcond, Option.map_some', hjst]
  | cleanup now days =>
      refine ⟨by simp, ?_⟩
      unfold statusOf cleanupOldBatches
      rw [hj, Option.map_some', hjst]

/-- State for the C9 witness: a single cancelled job sitting in the
queue. -/
def wC9s : SysState :=
  { maxWorkers := 4,
    jobs := [("b_video_0", { mkPendingJob "b_video_0" "video" {} .medium 0 with
                               status := .cancelled })],
    queue := ["b_video_0"],
    batches := [], completedIds := [] }

/-- Witness for C9: popping the cancelled job from `wC9s` is a silent
discard and the job stays `CANCELLED`. -/
theorem C9_cancelled_never_executed_witness :
    Label.silent ≠ Label.execute "b_video_0" ∧
    statusOf { wC9s with queue := ([] : List String) ++ [] } "b_video_0" =
      some .cancelled :=
  C9_cancelled_never_executed wC9s .silent { wC9s with queue := ([] : List String) ++ [] }
    (Step.popSkip wC9s [] [] "b_video_0" rfl (by decide)) "b_video_0" (by decide)

/-- Well-formedness of one batch-table entry against a job heap: the key
is the batch's id, `total_jobs` is the number of contained jobs, every
contained job id resolves back to the batch via its pre-underscore
segment, and the two counters equal the current status counts. -/
def BatchWF (store : List (String × BatchJob)) (kv : String × BatchRequest) : Prop :=
  kv.1 = kv.2.id ∧
  kv.2.total_jobs = kv.2.jobIds.length ∧
  (∀ jid ∈ kv.2.jobIds, idHead jid = kv.2.id) ∧
  kv.2.completed_jobs = countStatus store kv.2.jobIds .completed ∧
  kv.2.failed_jobs = countStatus store kv.2.jobIds .failed

/-- Engine-state invariant: batch keys are distinct and every batch entry
is well formed against the heap. -/
def Inv (s : SysState) : Prop :=
  (s.batches.map Prod.fst).Nodup ∧ ∀ kv ∈ s.batches, BatchWF s.jobs kv

lemma map_fst_map_val {α : Type} (g : (String × α) → α) (l : List (String × α)) :
    (l.map (fun kv => (kv.1, g kv))).map Prod.fst = l.map Prod.fst := by
  induction l with
  | nil => rfl
  | cons kv rest ih => simp [ih]

lemma getEntry_nodup_mem {α : Type} {l : List (String × α)} {k : String} {v : α}
    (hnd : (l.map Prod.fst).Nodup) (hmem : (k, v) ∈ l) : getEntry l k = some v := by
  induction l with
  | nil => simp at hmem
  | cons kv rest ih =>
    rw [List.map_cons, List.nodup_cons] at hnd
    rcases List.mem_cons.mp hmem with hmem | hmem
    · rw [← hmem]
      simp [getEntry]
    · have hk : kv.1 ≠ k := by
        intro he
        apply hnd.1
        rw [he]
        exact List.mem_map.mpr ⟨(k, v), hmem, rfl⟩
      simp only [getEntry, if_neg hk]
      exact ih hnd.2 hmem

lemma countStatus_congr (store1 store2 : List (String × BatchJob))
    (ids : List String) (st : JobStatus)
    (h : ∀ jid ∈ ids, (getEntry store1 jid).map BatchJob.status = some st ↔
      (getEntry store2 jid).map BatchJob.status = some st) :
    countStatus store1 ids st = countStatus store2 ids st :=
  List.countP_congr (fun jid hjid => by
    rw [decide_eq_true_eq, decide_eq_true_eq]
    exact h jid hjid)

lemma countStatus_setJob_notMem (store : List (String × BatchJob))
    (jid0 : String) (j2 : BatchJob) (ids : List String) (st : JobStatus)
    (h : jid0 ∉ ids) :
    countStatus (setJob store jid0 j2) ids st = countStatus store ids st :=
  countStatus_congr _ _ ids st (fun jid hjid => by
    rw [getEntry_setJob_ne store jid0 j2 jid (fun he => h (he ▸ hjid))])

lemma countStatus_append_pending (store newJobs : List (String × BatchJob))
    (hpend : ∀ kv ∈ newJobs, kv.2.status = .pending)
    (ids : List String) (st : JobStatus) (hst : st ≠ .pending) :
    countStatus (store ++ newJobs) ids st = countStatus store ids st :=
  countStatus_congr _ _ ids st (fun jid _ => by
    cases hj : getEntry store jid with
    | some j => rw [getEntry_append_some hj]
    | none =>
        rw [getEntry_append_none hj]
        cases hn : getEntry newJobs jid with
        | none => rfl
        | some v =>
            have hv : v.status = .pending := hpend (jid, v) (getEntry_some_mem hn)
            rw [Option.map_some', hv]
            simp [Ne.symm hst])

lemma countStatus_fresh_pending (store newJobs : List (String × BatchJob))
    (hpend : ∀ kv ∈ newJobs, kv.2.status = .pending)
    (ids : List String) (hfresh : ∀ jid ∈ ids, getEntry store jid = none)
    (st : JobStatus) (hst : st ≠ .pending) :
    countStatus (store ++ newJobs) ids st = 0 := by
  rw [countStatus, List.countP_eq_zero]
  intro jid hjid
  rw [decide_eq_true_eq, getEntry_append_none (hfresh jid hjid)]
  cases hn : getEntry newJobs jid with
  | none => simp
  | some v =>
      have hv := hpend (jid, v) (getEntry_some_mem hn)
      rw [Option.map_some', hv]
      simp [Ne.symm hst]

lemma countStatus_cancelMap (store : List (String × BatchJob)) (ids0 ids : List String)
    (st : JobStatus) (hp : st ≠ .pending) (hcn : st ≠ .cancelled) :
    countStatus (store.map (fun kv =>
      (kv.1, if kv.1 ∈ ids0 ∧ kv.2.status = JobStatus.pending then
               { kv.2 with status := JobStatus.cancelled } else kv.2))) ids st
      = countStatus store ids st := by
  apply countStatus_congr
  intro jid _
  have hmap := getEntry_map_val
    (fun k1 v => if k1 ∈ ids0 ∧ v.status = JobStatus.pending then
      { v with status := JobStatus.cancelled } else v) store
  rw [hmap jid]
  cases hj : getEntry store jid with
  | none => rfl
  | some v =>
      simp only [Option.map_some']
      by_cases hcond : jid ∈ ids0 ∧ v.status = JobStatus.pending
      · rw [if_pos hcond]
        simp only [Option.map_some']
        simp [hcond.2, Ne.symm hcn, Ne.symm hp]
      · rw [if_neg hcond]

lemma updateBatchFor_eq_none (s : SysState) (jid : String)
    (h : getEntry s.batches (idHead jid) = none) :
    updateBatchFor s jid = s := by
  simp [updateBatchFor, h]

lemma updateBatchFor_batches_some (s : SysState) (jid : String) (B0 : BatchRequest)
    (h : getEntry s.batches (idHead jid) = some B0) :
    (updateBatchFor s jid).batches =
      s.batches.map (fun kv =>
        (kv.1, if kv.1 = idHead jid then updateBatchStatus s.jobs B0 else kv.2)) := by
  simp [updateBatchFor, h]

lemma inv_setJob_update (s : SysState) (jid0 : String) (j2 : BatchJob)
    (hInv : Inv s) (s1 : SysState)
    (hjobs : s1.jobs = setJob s.jobs jid0 j2) (hbat : s1.batches = s.batches) :
    Inv (updateBatchFor s1 jid0) := by
  obtain ⟨hnd, hwf⟩ := hInv
  have hnotmem : ∀ kv ∈ s.batches, kv.1 ≠ idHead jid0 → jid0 ∉ kv.2.jobIds := by
    intro kv hkv hne hmem2
    obtain ⟨hkey, -, hpre, -, -⟩ := hwf kv hkv
    exact hne (hkey.trans (hpre jid0 hmem2).symm)
  cases hB : getEntry s1.batches (idHead jid0) with
  | none =>
      rw [updateBatchFor_eq_none s1 jid0 hB]
      rw [hbat] at hB
      refine ⟨by rw [hbat]; exact hnd, ?_⟩
      intro kv hkv
      rw [hbat] at hkv
      obtain ⟨hkey, htot, hpre, hcmp, hfl⟩ := hwf kv hkv
      have hne : kv.1 ≠ idHead jid0 := getEntry_none_iff.mp hB kv hkv
      have hnm := hnotmem kv hkv hne
      exact ⟨hkey, htot, hpre,
        by rw [hjobs, countStatus_setJob_notMem s.jobs jid0 j2 _ _ hnm]; exact hcmp,
        by rw [hjobs, countStatus_setJob_notMem s.jobs jid0 j2 _ _ hnm]; exact hfl⟩
  | some B0 =>
      have hbb := updateBatchFor_batches_some s1 jid0 B0 hB
      rw [hbat] at hB
      constructor
      · rw [hbb, map_fst_map_val
          (fun kv => if kv.1 = idHead jid0 then updateBatchStatus s1.jobs B0 else kv.2)
          s1.batches, hbat]
        exact hnd
      · intro kv2 hkv2
        rw [hbb] at hkv2
        obtain ⟨kv, hkv, hkv2eq⟩ := List.mem_map.mp hkv2
        rw [hbat] at hkv
        obtain ⟨hkey, htot, hpre, hcmp, hfl⟩ := hwf kv hkv
        rw [updateBatchFor_jobs]
        subst hkv2eq
        by_cases hk : kv.1 = idHead jid0
        · have hB1 : getEntry s.batches kv.1 = some kv.2 := getEntry_nodup_mem hnd hkv
          rw [hk] at hB1
          rw [hB1] at hB
          have hBB : B0 = kv.2 := (Option.some.inj hB).symm
          rw [hBB]
          rw [if_pos hk]
          obtain ⟨hid, -, hids, -, htotp, hcmpp, hflp⟩ := updateBatchStatus_proj s1.jobs kv.2
          refine ⟨by rw [hid]; exact hkey, ?_, ?_, ?_, ?_⟩
          · rw [htotp, hids, htot]
          · intro jid hjid
            rw [hids] at hjid
            rw [hid]
            exact hpre jid hjid
          · rw [hcmpp, hids]
          · rw [hflp, hids]
        · rw [if_neg hk]
          have hnm := hnotmem kv hkv hk
          exact ⟨hkey, htot, hpre,
            by rw [hjobs, countStatus_setJob_notMem s.jobs jid0 j2 _ _ hnm]; exact hcmp,
            by rw [hjobs, countStatus_setJob_notMem s.jobs jid0 j2 _ _ hnm]; exact hfl⟩

lemma inv_createBatch (s : SysState) (bid nm ty : String) (reqs : List InputData)
    (prio : JobPriority) (t : Int) (hund : '_' ∉ bid.data)
    (hfreshB : getEntry s.batches bid = none)
    (hfreshJ : ∀ i : Nat, getEntry s.jobs (mkJobId bid ty i) = none)
    (hInv : Inv s) : Inv (createBatchState s bid nm ty reqs prio t) := by
  obtain ⟨hnd, hwf⟩ := hInv
  have hpend : ∀ kv ∈ reqs.enum.map (fun p =>
      (mkJobId bid ty p.1, mkPendingJob (mkJobId bid ty p.1) ty p.2 prio t)),
      kv.2.status = JobStatus.pending := by
    intro kv hkv
    obtain ⟨p, -, hpe⟩ := List.mem_map.mp hkv
    rw [← hpe]
    rfl
  have hfreshIds : ∀ jid ∈ (reqs.enum.map (fun p =>
      (mkJobId bid ty p.1, mkPendingJob (mkJobId bid ty p.1) ty p.2 prio t))).map Prod.fst,
      getEntry s.jobs jid = none := by
    intro jid hjid
    obtain ⟨kv, hkv, hfst⟩ := List.mem_map.mp hjid
    obtain ⟨p, -, hpe⟩ := List.mem_map.mp hkv
    rw [← hfst, ← hpe]
    exact hfreshJ p.1
  have hbidfree : bid ∉ s.batches.map Prod.fst := by
    intro hmem
    obtain ⟨kv, hkv, hfst⟩ := List.mem_map.mp hmem
    exact getEntry_none_iff.mp hfreshB kv hkv hfst
  constructor
  · simp only [createBatchState, List.map_append]
    simp [List.nodup_append, hnd, hbidfree]
  · intro kv2 hkv2
    simp only [createBatchState] at hkv2
    rcases List.mem_append.mp hkv2 with hold | hnew
    · obtain ⟨hkey, htot, hpre, hcmp, hfl⟩ := hwf kv2 hold
      refine ⟨hkey, htot, hpre, ?_, ?_⟩
      · simp only [createBatchState]
        rw [countStatus_append_pending s.jobs _ hpend _ _ (by decide)]
        exact hcmp
      · simp only [createBatchState]
        rw [countStatus_append_pending s.jobs _ hpend _ _ (by decide)]
        exact hfl
    · rw [List.mem_singleton] at hnew
      subst hnew
      refine ⟨rfl, by simp, ?_, ?_, ?_⟩
      · intro jid hjid
        obtain ⟨kv, hkv, hfst⟩ := List.mem_map.mp hjid
        obtain ⟨p, -, hpe⟩ := List.mem_map.mp hkv
        rw [← hfst, ← hpe]
        exact idHead_mkJobId bid ty p.1 hund
      · simp only [createBatchState]
        rw [countStatus_fresh_pending s.jobs _ hpend _ hfreshIds _ (by decide)]
      · simp only [createBatchState]
        rw [countStatus_fresh_pending s.jobs _ hpend _ hfreshIds _ (by decide)]

lemma inv_cancelBatch (s : SysState) (bid : String) (hInv : Inv s) :
    Inv (cancelBatchFn s bid).1 := by
  obtain ⟨hnd, hwf⟩ := hInv
  cases hB : getEntry s.batches bid with
  | none =>
      have hsame : (cancelBatchFn s bid).1 = s := by simp [cancelBatchFn, hB]
      rw [hsame]
      exact ⟨hnd, hwf⟩
  | some B =>
      have hjobs : (cancelBatchFn s bid).1.jobs =
          s.jobs.map (fun kv =>
            (kv.1, if kv.1 ∈ B.jobIds ∧ kv.2.status = JobStatus.pending then
                     { kv.2 with status := JobStatus.cancelled } else kv.2)) := by
        simp [cancelBatchFn, hB]
      have hbatches : (cancelBatchFn s bid).1.batches =
          s.batches.map (fun kv =>
            (kv.1, if kv.1 = bid then { kv.2 with status := JobStatus.cancelled }
                   else kv.2)) := by
        simp [cancelBatchFn, hB]
      constructor
      · rw [hbatches, map_fst_map_val
          (fun kv => if kv.1 = bid then { kv.2 with status := JobStatus.cancelled }
                     else kv.2) s.batches]
        exact hnd
      · intro kv2 hkv2
        rw [hbatches] at hkv2
        obtain ⟨kv, hkv, hkv2eq⟩ := List.mem_map.mp hkv2
        obtain ⟨hkey, htot, hpre, hcmp, hfl⟩ := hwf kv hkv
        subst hkv2eq
        rw [hjobs]
        by_cases hk : kv.1 = bid
        · rw [if_pos hk]
          refine ⟨hkey, htot, hpre, ?_, ?_⟩
          · rw [countStatus_cancelMap s.jobs B.jobIds _ _ (by decide) (by decide)]
            exact hcmp
          · rw [countStatus_cancelMap s.jobs B.jobIds _ _ (by decide) (by decide)]
            exact hfl
        · rw [if_neg hk]
          refine ⟨hkey, htot, hpre, ?_, ?_⟩
          · rw [countStatus_cancelMap s.jobs B.jobIds _ _ (by decide) (by decide)]
            exact hcmp
          · rw [countStatus_cancelMap s.jobs B.jobIds _ _ (by decide) (by decide)]
            exact hfl

lemma inv_cleanup (s : SysState) (now days : Int) (hInv : Inv s) :
    Inv (cleanupOldBatches s now days).1 := by
  obtain ⟨hnd, hwf⟩ := hInv
  constructor
  · have hsub : List.Sublist ((cleanupOldBatches s now days).1.batches) s.batches := by
      simp only [cleanupOldBatches]
      exact List.filter_sublist s.batches
    exact (hsub.map Prod.fst).nodup hnd
  · intro kv hkv
    have hmem : kv ∈ s.batches := by
      simp only [cleanupOldBatches] at hkv
      exact List.mem_of_mem_filter hkv
    exact hwf kv hmem

lemma inv_step (s : SysState) (l : Label) (s2 : SysState) (hstep : Step s l s2)
    (hInv : Inv s) : Inv s2 := by
  cases hstep with
  | createBatch bid nm ty reqs prio t hty hund hfreshB hfreshJ =>
      exact inv_createBatch s bid nm ty reqs prio t hund hfreshB hfreshJ hInv
  | popSkip q1 q2 jid0 hq hc =>
      exact ⟨hInv.1, hInv.2⟩
  | popSucceed q1 q2 jid0 j0 tS tE r hq hj0 hnc =>
      exact inv_setJob_update s jid0 (succeedJob tS tE r j0) hInv
        { s with jobs := setJob s.jobs jid0 (succeedJob tS tE r j0),
                 queue := q1 ++ q2, completedIds := jid0 :: s.completedIds } rfl rfl
  | popFail q1 q2 jid0 j0 tS tE e hq hj0 hnc =>
      exact inv_setJob_update s jid0 (failJobStep tS tE e j0).1 hInv
        { s with jobs := setJob s.jobs jid0 (failJobStep tS tE e j0).1,
                 queue := (q1 ++ q2) ++ (if (failJobStep tS tE e j0).2 then [jid0] else []),
                 completedIds := jid0 :: s.completedIds } rfl rfl
  | cancelBatch bid => exact inv_cancelBatch s bid hInv
  | cleanup now days => exact inv_cleanup s now days hInv

lemma inv_init (w : Nat) : Inv (initState w) := by
  constructor
  · simp [initState]
  · intro kv hkv
    simp [initState] at hkv

lemma inv_reaches (w : Nat) (s : SysState) (hr : Reaches (initState w) s) : Inv s := by
  induction hr with
  | refl => exact inv_init w
  | tail hsteps hstep ih =>
      obtain ⟨l, hl⟩ := hstep
      exact inv_step _ l _ hl ih

/-- C1 amended: at every reachable engine state,
`completed_jobs + failed_jobs ≤ total_jobs` holds for every batch, and
equality holds iff every contained job is `COMPLETED` or `FAILED` — not
iff the batch is terminal: `CANCELLED` jobs are terminal but counted in
neither counter, so a terminal batch containing one keeps a strict
inequality. -/
theorem C1_batch_counters (w : Nat) (s : SysState) (hr : Reaches (initState w) s)
    (bid : String) (B : BatchRequest) (hmem : (bid, B) ∈ s.batches) :
    B.completed_jobs + B.failed_jobs ≤ B.total_jobs ∧
    (B.completed_jobs + B.failed_jobs = B.total_jobs ↔
      ∀ jid ∈ B.jobIds, statusOf s jid = some JobStatus.completed ∨
        statusOf s jid = some JobStatus.failed) := by
  obtain ⟨hnd, hwf⟩ := inv_reaches w s hr
  obtain ⟨hkey, htot, hpre, hcmp, hfl⟩ := hwf (bid, B) hmem
  constructor
  · rw [hcmp, hfl, htot]
    exact countStatus_pair_le s.jobs B.jobIds
  · rw [hcmp, hfl, htot]
    have hiff := countStatus_pair_eq_iff s.jobs B.jobIds
    simpa [statusOf] using hiff

/-- First reachable state for claim C1: a fresh service after creating a
one-job video batch with id "b". -/
def cexC1s1 : SysState :=
  createBatchState (initState 4) "b" "n" "video" [{}] .medium 0

/-- Second reachable state for claim C1: the same service after
`cancel_batch("b")`. -/
def cexC1s2 : SysState := (cancelBatchFn cexC1s1 "b").1

/-- The batch record of `cexC1s1` as the engine builds it. -/
def cexC1B1 : BatchRequest :=
  { id := "b", name := "n", jobIds := [mkJobId "b" "video" 0], created_at := 0,
    total_jobs := 1,
    estimated_duration := some (estimateBatchDuration 4
      [mkPendingJob (mkJobId "b" "video" 0) "video" {} .medium 0]) }

/-- The batch record of `cexC1s2`: same but `CANCELLED`. -/
def cexC1B2 : BatchRequest :=
  { id := "b", name := "n", jobIds := [mkJobId "b" "video" 0], created_at := 0,
    total_jobs := 1, status := .cancelled,
    estimated_duration := some (estimateBatchDuration 4
      [mkPendingJob (mkJobId "b" "video" 0) "video" {} .medium 0]) }

lemma cexC1_step1 : Step (initState 4) .silent cexC1s1 :=
  Step.createBatch (initState 4) "b" "n" "video" [{}] .medium 0
    (Or.inl rfl) (by decide) rfl (fun _ => rfl)

lemma cexC1_step2 : Step cexC1s1 .silent cexC1s2 :=
  Step.cancelBatch cexC1s1 "b"

/-- C1 counterexample: the state reached by creating a one-job batch and
cancelling it is terminal (its only job is `CANCELLED`), yet
`completed_jobs + failed_jobs = 0 ≠ 1 = total_jobs` — equality does not
hold for every terminal batch. -/
theorem C1_counterexample :
    ∃ s2 : SysState, Reaches (initState 4) s2 ∧
      ∃ kv ∈ s2.batches,
        (∀ jid ∈ kv.2.jobIds,
          statusOf s2 jid = some JobStatus.completed ∨
          statusOf s2 jid = some JobStatus.failed ∨
          statusOf s2 jid = some JobStatus.cancelled) ∧
        kv.2.completed_jobs + kv.2.failed_jobs ≠ kv.2.total_jobs := by
  refine ⟨cexC1s2, ?_, ("b", cexC1B2), ?_, ?_, by decide⟩
  · exact Relation.ReflTransGen.tail
      (Relation.ReflTransGen.single ⟨.silent, cexC1_step1⟩) ⟨.silent, cexC1_step2⟩
  · exact List.mem_singleton.mpr rfl
  · intro jid hjid
    rw [List.mem_singleton.mp hjid]
    exact Or.inr (Or.inr (by decide))

/-- Witness for C1 amended at the one-batch state `cexC1s1`. -/
theorem C1_batch_counters_witness :
    cexC1B1.completed_jobs + cexC1B1.failed_jobs ≤ cexC1B1.total_jobs ∧
    (cexC1B1.completed_jobs + cexC1B1.failed_jobs = cexC1B1.total_jobs ↔
      ∀ jid ∈ cexC1B1.jobIds, statusOf cexC1s1 jid = some JobStatus.completed ∨
        statusOf cexC1s1 jid = some JobStatus.failed) :=
  C1_batch_counters 4 cexC1s1 (Relation.ReflTransGen.single ⟨.silent, cexC1_step1⟩)
    "b" cexC1B1 (List.mem_singleton.mpr rfl)

end VEO7
